import Mathlib

/-!
Verification development for the `runninghub` duck-image steganography
decoder (`runninghub_cli/duck_utils.py`).

The Python module is shallowly embedded here:
* bytes are `List Nat` (each element intended `< 256`),
* images are flattened pixel buffers (`h`, `w`, and a row-major,
  channel-minor `List Nat` of length `h*w*3`), mirroring
  `np.array(img).reshape(-1)`,
* exceptions are `Except` values over the error inductive `DuckErr`,
* `hashlib.sha256` is embedded as a full executable SHA-256 over byte lists.
-/

namespace Duck

/-- Truncation to a 32-bit machine word, `x % 2**32`. -/
def w32 (x : Nat) : Nat := x % 4294967296

/-- Right rotation of a 32-bit word. -/
def rotr (k x : Nat) : Nat := w32 ((x >>> k) ||| (x <<< (32 - k)))

/-- Big-endian byte encoding of `n` into `k` bytes (`int.to_bytes(k, "big")`,
truncating above `2**(8*k)`). -/
def beBytes (k n : Nat) : List Nat :=
  (List.range k).map (fun i => (n >>> ((k - 1 - i) * 8)) % 256)

/-- Big-endian decoding of a byte list (`struct.unpack(">I", ...)` reads
4 bytes this way). -/
def be32 (bs : List Nat) : Nat := bs.foldl (fun acc b => acc * 256 + b) 0

/-- Lowercase hex digit for a value `< 16`, as an ASCII code. -/
def hexDigit (d : Nat) : Nat := if d < 10 then 48 + d else 87 + d

/-- ASCII codes of `bytes.hex()`: two lowercase hex digits per byte. -/
def hexAscii (bs : List Nat) : List Nat :=
  bs.flatMap (fun b => [hexDigit (b / 16), hexDigit (b % 16)])

/-- Decimal digits of `n`, most significant first. -/
def decDigits (n : Nat) : List Nat :=
  if n < 10 then [n] else decDigits (n / 10) ++ [n % 10]
  termination_by n
  decreasing_by exact Nat.div_lt_self (by omega) (by omega)

/-- ASCII codes of `str(n).encode("utf-8")` for a natural number. -/
def decimalAscii (n : Nat) : List Nat := (decDigits n).map (48 + ·)

/-! ### SHA-256 (embedding of `hashlib.sha256(...).digest()`) -/

/-- The 64 SHA-256 round constants, in decimal. -/
def shaK : List Nat :=
  [1116352408, 1899447441, 3049323471, 3921009573, 961987163,
   1508970993, 2453635748, 2870763221, 3624381080, 310598401, 607225278,
   1426881987, 1925078388, 2162078206, 2614888103, 3248222580,
   3835390401, 4022224774, 264347078, 604807628, 770255983, 1249150122,
   1555081692, 1996064986, 2554220882, 2821834349, 2952996808,
   3210313671, 3336571891, 3584528711, 113926993, 338241895, 666307205,
   773529912, 1294757372, 1396182291, 1695183700, 1986661051,
   2177026350, 2456956037, 2730485921, 2820302411, 3259730800,
   3345764771, 3516065817, 3600352804, 4094571909, 275423344, 430227734,
   506948616, 659060556, 883997877, 958139571, 1322822218, 1537002063,
   1747873779, 1955562222, 2024104815, 2227730452, 2361852424,
   2428436474, 2756734187, 3204031479, 3329325298]

/-- The eight working variables of the SHA-256 compression function. -/
structure ShaState where
  a : Nat
  b : Nat
  c : Nat
  d : Nat
  e : Nat
  f : Nat
  g : Nat
  h : Nat

/-- SHA-256 initial hash state, in decimal. -/
def shaInit : ShaState :=
  ⟨1779033703, 3144134277, 1013904242, 2773480762,
   1359893119, 2600822924, 528734635, 1541459225⟩

/-- One round of the SHA-256 compression function. -/
def shaRound (st : ShaState) (kw : Nat × Nat) : ShaState :=
  let s1 := (rotr 6 st.e) ^^^ (rotr 11 st.e) ^^^ (rotr 25 st.e)
  let ch := (st.e &&& st.f) ^^^ ((0xffffffff ^^^ st.e) &&& st.g)
  let t1 := w32 (st.h + s1 + ch + kw.1 + kw.2)
  let s0 := (rotr 2 st.a) ^^^ (rotr 13 st.a) ^^^ (rotr 22 st.a)
  let mj := (st.a &&& st.b) ^^^ (st.a &&& st.c) ^^^ (st.b &&& st.c)
  let t2 := w32 (s0 + mj)
  ⟨w32 (t1 + t2), st.a, st.b, st.c, w32 (st.d + t1), st.e, st.f, st.g⟩

/-- The 64-entry message schedule of one 64-byte block. -/
def shaSchedule (block : List Nat) : List Nat :=
  let w16 := (List.range 16).map (fun i =>
    be32 ((block.drop (4 * i)).take 4))
  (List.range 48).foldl (fun w j =>
    let i := j + 16
    let x15 := w.getD (i - 15) 0
    let x2 := w.getD (i - 2) 0
    let s0 := (rotr 7 x15) ^^^ (rotr 18 x15) ^^^ (x15 >>> 3)
    let s1 := (rotr 17 x2) ^^^ (rotr 19 x2) ^^^ (x2 >>> 10)
    w ++ [w32 (w.getD (i - 16) 0 + s0 + w.getD (i - 7) 0 + s1)]) w16

/-- Process one 64-byte block, updating the hash state. -/
def shaBlock (st : ShaState) (block : List Nat) : ShaState :=
  let r := (shaK.zip (shaSchedule block)).foldl shaRound st
  ⟨w32 (st.a + r.a), w32 (st.b + r.b), w32 (st.c + r.c), w32 (st.d + r.d),
   w32 (st.e + r.e), w32 (st.f + r.f), w32 (st.g + r.g), w32 (st.h + r.h)⟩

/-- SHA-256 padding: `0x80`, zeros to 56 mod 64, then the 64-bit bit length. -/
def shaPad (msg : List Nat) : List Nat :=
  let z := (119 - (msg.length % 64)) % 64
  msg ++ [0x80] ++ List.replicate z 0 ++ beBytes 8 (8 * msg.length)

/-- `hashlib.sha256(msg).digest()`: the 32-byte SHA-256 digest of `msg`. -/
def sha256 (msg : List Nat) : List Nat :=
  let padded := shaPad msg
  let nblocks := padded.length / 64
  let fin := (List.range nblocks).foldl
    (fun st i => shaBlock st ((padded.drop (64 * i)).take 64)) shaInit
  beBytes 4 fin.a ++ beBytes 4 fin.b ++ beBytes 4 fin.c ++ beBytes 4 fin.d ++
  beBytes 4 fin.e ++ beBytes 4 fin.f ++ beBytes 4 fin.g ++ beBytes 4 fin.h

/-- Sanity: digest of the empty message matches the published SHA-256 vector. -/
example : sha256 [] =
    [0xe3, 0xb0, 0xc4, 0x42, 0x98, 0xfc, 0x1c, 0x14, 0x9a, 0xfb, 0xf4, 0xc8,
     0x99, 0x6f, 0xb9, 0x24, 0x27, 0xae, 0x41, 0xe4, 0x64, 0x9b, 0x93, 0x4c,
     0xa4, 0x95, 0x99, 0x1b, 0x78, 0x52, 0xb8, 0x55] := by decide

/-- Sanity: digest of `"abc"` matches the published SHA-256 vector. -/
example : sha256 [0x61, 0x62, 0x63] =
    [0xba, 0x78, 0x16, 0xbf, 0x8f, 0x01, 0xcf, 0xea, 0x41, 0x41, 0x40, 0xde,
     0x5d, 0xae, 0x22, 0x23, 0xb0, 0x03, 0x61, 0xa3, 0x96, 0x17, 0x7a, 0x9c,
     0xb4, 0x10, 0xff, 0x61, 0xf2, 0x00, 0x15, 0xad] := by decide

/-- `(beBytes k n).length = k`. -/
theorem beBytes_length (k n : Nat) : (beBytes k n).length = k := by
  simp [beBytes]

/-- A SHA-256 digest is always exactly 32 bytes. -/
theorem sha256_length (m : List Nat) : (sha256 m).length = 32 := by
  simp [sha256, beBytes_length]

/-! ### Keystream (embedding of `_generate_key_stream`) -/

/-- The `while len(out) < length` accumulation loop of `_generate_key_stream`:
append `sha256(key_material + str(counter))` digests until `length` bytes
are available. -/
def ksLoop (km : List Nat) (len : Nat) (out : List Nat) (ctr : Nat) : List Nat :=
  if out.length < len then
    ksLoop km len (out ++ sha256 (km ++ decimalAscii ctr)) (ctr + 1)
  else out
  termination_by len - out.length
  decreasing_by simp [List.length_append, sha256_length]; omega

/-- `_generate_key_stream(password, salt, length)`: counter-mode SHA-256
keystream truncated to `length` bytes.  `password` is the UTF-8 byte
encoding of the password string; `key_material = password + salt.hex()`. -/
def generate_key_stream (password salt : List Nat) (len : Nat) : List Nat :=
  (ksLoop (password ++ hexAscii salt) len [] 0).take len

/-- The accumulation loop always reaches at least `len` bytes. -/
theorem ksLoop_length (km : List Nat) (len : Nat) :
    ∀ out ctr, len ≤ (ksLoop km len out ctr).length := by
  have H : ∀ n out ctr, len - out.length ≤ n →
      len ≤ (ksLoop km len out ctr).length := by
    intro n
    induction n with
    | zero =>
      intro out ctr hle
      rw [ksLoop]
      have hnl : ¬ out.length < len := by omega
      simp [hnl]
      omega
    | succ n ih =>
      intro out ctr hle
      rw [ksLoop]
      by_cases hl : out.length < len
      · simp [hl]
        apply ih
        simp [List.length_append, sha256_length]
        omega
      · simp [hl]; omega
  intro out ctr
  exact H (len - out.length) out ctr le_rfl

/-- The generated keystream has exactly the requested length. -/
theorem generate_key_stream_length (p s : List Nat) (l : Nat) :
    (generate_key_stream p s l).length = l := by
  have h := ksLoop_length (p ++ hexAscii s) l [] 0
  simp [generate_key_stream, List.length_take]
  exact h

/-! ### Errors (the `ValueError`/`RuntimeError` messages of `duck_utils.py`) -/

/-- The distinct failure modes raised inside the decoder. -/
inductive DuckErr where
  | insufficientData
  | invalidLength
  | headerCorrupt
  | lengthMismatch
  | passwordRequired
  | wrongPassword
  | extractionFailed
deriving DecidableEq

/-- The exception message text attached to each failure in the source. -/
def errMsg : DuckErr → String
  | .insufficientData => "Insufficient image data / 图像数据不足"
  | .invalidLength => "Payload length invalid / 载荷长度异常"
  | .headerCorrupt => "Header corrupted / 文件头损坏"
  | .lengthMismatch => "Data length mismatch / 数据长度不匹配"
  | .passwordRequired => "Password required / 需要密码"
  | .wrongPassword => "Wrong password / 密码错误"
  | .extractionFailed => "Failed to extract data / 无法提取数据"

/-! ### Header parsing (embedding of `_parse_header`) -/

/-- The part of `_parse_header` after the optional password block: extension
length byte, extension bytes, 4-byte big-endian data length, payload, then
the password check and XOR decryption.  `idx` is the running offset (1
without a password block, 49 with one).  The extension is kept as its raw
bytes (the source decodes it lossily to `str` for display only). -/
def parseTail (header : List Nat) (idx : Nat) (has_pwd : Bool)
    (pwd_hash salt password : List Nat) : Except DuckErr (List Nat × List Nat) :=
  if header.length < idx + 1 then .error .headerCorrupt
  else
    let ext_len := header.getD idx 0
    if header.length < idx + 1 + ext_len + 4 then .error .headerCorrupt
    else
      let ext := (header.drop (idx + 1)).take ext_len
      let data_len := be32 ((header.drop (idx + 1 + ext_len)).take 4)
      let data := header.drop (idx + 1 + ext_len + 4)
      if data.length ≠ data_len then .error .lengthMismatch
      else if !has_pwd then .ok (data, ext)
      else if password = [] then .error .passwordRequired
      else if sha256 (password ++ hexAscii salt) ≠ pwd_hash then
        .error .wrongPassword
      else
        .ok (List.zipWith Nat.xor data
              (generate_key_stream password salt data.length), ext)

/-- `_parse_header(header, password)`.  Bytes are `List Nat`; `password` is
the UTF-8 byte encoding of the password string (empty string = `[]`). -/
def parse_header (header password : List Nat) :
    Except DuckErr (List Nat × List Nat) :=
  if header.length < 1 then .error .headerCorrupt
  else if header.getD 0 0 = 1 then
    if header.length < 49 then .error .headerCorrupt
    else parseTail header 49 true ((header.drop 1).take 32)
      ((header.drop 33).take 16) password
  else parseTail header 1 false [] [] password

/-! ### Video reconstruction (embedding of `binpng_bytes_to_video_data`) -/

/-- `bytes.rstrip(b"\x00")`: drop the maximal trailing run of zero bytes. -/
def rstripZeroBytes (l : List Nat) : List Nat :=
  (l.reverse.dropWhile (· == 0)).reverse

/-- `np.array(img).reshape(-1, 3).reshape(-1)`: the row-major, channel-minor
flattening of an `h × w × 3` pixel array (rows of pixels of channels). -/
def pixelBuffer (arr : List (List (List Nat))) : List Nat :=
  arr.flatten.flatten

/-- `binpng_bytes_to_video_data`, modelled from the decoded pixel array of
the embedded PNG (the PNG round-trip through a temp file is I/O): flatten
the RGB pixel grid and strip trailing zero padding. -/
def binpng_bytes_to_video_data (arr : List (List (List Nat))) : List Nat :=
  rstripZeroBytes (pixelBuffer arr)

/-! ### Bit extraction (embedding of `_extract_payload_with_k`) -/

/-- `int(w * WATERMARK_SKIP_W_RATIO)` with ratio `0.40`. -/
def skipW (w : Nat) : Nat := w * 40 / 100

/-- `int(h * WATERMARK_SKIP_H_RATIO)` with ratio `0.08`. -/
def skipH (h : Nat) : Nat := h * 8 / 100

/-- The flattened watermark mask (`mask3d.reshape(-1)`): flat index `i` of
the row-major, channel-minor `h × w × 3` buffer is kept unless its pixel
lies in `rows < skip_h` and `cols < skip_w`, and only when both skips are
strictly positive. -/
def eligIdx (h w i : Nat) : Bool :=
  if 0 < skipW w ∧ 0 < skipH h then
    !(decide (i / 3 / w < skipH h ∧ i / 3 % w < skipW w))
  else true

/-- `np.unpackbits(vals, bitorder="big")[:, -k:]` for one masked channel
value: the `k` low bits of `v &&& (2^k - 1)`, most significant first. -/
def lowBitsMSB (k v : Nat) : List Bool :=
  (List.range k).map (fun i => (v &&& (2 ^ k - 1)).testBit (k - 1 - i))

/-- The raw bit stream of `_extract_payload_with_k`: mask the flat buffer,
keep the eligible flat indices in order, and emit the low `k` bits of each
kept channel value MSB-first. -/
def extractBits (h w : Nat) (flat : List Nat) (k : Nat) : List Bool :=
  (((List.range (h * w * 3)).filter (fun i => eligIdx h w i)).map
    (fun i => lowBitsMSB k (flat.getD i 0))).flatten

/-- `np.packbits(bits, bitorder="big")` value of up to 8 bits, MSB-first,
zero-padded on the right to 8 bits. -/
def bitsToNat (bs : List Bool) : Nat :=
  bs.foldl (fun acc b => 2 * acc + (if b then 1 else 0)) 0

/-- `np.packbits(bits, bitorder="big").tobytes()`: pack the bit list into
bytes of 8 bits MSB-first, the last byte zero-padded on the right. -/
def bitsToBytes : List Bool → List Nat
  | [] => []
  | b :: rest =>
    bitsToNat ((b :: rest.take 7) ++
      List.replicate (7 - (rest.take 7).length) false) :: bitsToBytes (rest.drop 7)
  termination_by l => l.length
  decreasing_by simp [List.length_drop]; omega

/-- `_extract_payload_with_k(arr, k)` on an `h × w × 3` array given by its
row-major, channel-minor flat buffer: read a 32-bit big-endian byte length,
check it, and pack that many payload bytes from the following bits. -/
def extract_payload_with_k (h w : Nat) (flat : List Nat) (k : Nat) :
    Except DuckErr (List Nat) :=
  let bits := extractBits h w flat k
  if bits.length < 32 then .error .insufficientData
  else
    let header_len := be32 (bitsToBytes (bits.take 32))
    if header_len = 0 ∨ 32 + header_len * 8 > bits.length then
      .error .invalidLength
    else .ok (bitsToBytes ((bits.drop 32).take (header_len * 8)))

/-! ### Depth fallback controller (embedding of `extract_with_fallback`) -/

/-- One loop iteration's body: `_extract_payload_with_k` then
`_parse_header`, as a single atomic attempt for depth `k`. -/
def attemptDepth (h w : Nat) (flat password : List Nat) (k : Nat) :
    Except DuckErr (List Nat × List Nat) :=
  match extract_payload_with_k h w flat k with
  | .error e => .error e
  | .ok header => parse_header header password

/-- The `for k in (2, 6, 8)` loop of `extract_with_fallback`, carrying
`last_err` exactly as the source does (`None` before the first failure,
falling back to the generic `RuntimeError` if no error was recorded). -/
def tryDepths (h w : Nat) (flat password : List Nat) :
    List Nat → Option DuckErr → Except DuckErr (List Nat × List Nat)
  | [], none => .error .extractionFailed
  | [], some e => .error e
  | k :: ks, _ =>
    match attemptDepth h w flat password k with
    | .ok v => .ok v
    | .error e => tryDepths h w flat password ks (some e)

/-- The outer `except` of `extract_with_fallback` re-raises as
`ValueError(f"Extraction failed: {e} / 提取失败: {e}")`. -/
def wrapMsg (m : String) : String :=
  "Extraction failed: " ++ m ++ " / 提取失败: " ++ m

/-- `extract_with_fallback(image_path, password)`, on the already-decoded
RGB pixel buffer (`Image.open` is I/O; `image_path` is carried to mirror
the source signature and is used by the source only to open the file). -/
def extract_with_fallback (image_path : String) (h w : Nat)
    (flat password : List Nat) : Except String (List Nat × List Nat) :=
  match tryDepths h w flat password [2, 6, 8] none with
  | .ok v => .ok v
  | .error e => .error (wrapMsg (errMsg e))

/-! ### `decode_duck_image` result shape -/

/-- The result dictionary of `decode_duck_image`, with exactly the keys
`success`, `output_path`, `file_type`, `data_size`, `error`. -/
structure DecodeResult where
  success : Bool
  output_path : Option String
  file_type : Option String
  data_size : Nat
  error : Option String

/-- `decode_duck_image`: the fallible stages (image validation, extraction,
output-path generation including its `os.makedirs`, and saving) are passed
as their `Except` outcomes because they perform I/O; the function mirrors
the source's single `try/except` that fills the result dictionary. -/
def decode_duck_image (validateR : Except String Unit)
    (extractR : Except String (List Nat × String))
    (genPathR : Except String String)
    (saveR : String → List Nat → String → Except String Unit) : DecodeResult :=
  match validateR with
  | .error e => ⟨false, none, none, 0, some e⟩
  | .ok _ =>
    match extractR with
    | .error e => ⟨false, none, none, 0, some e⟩
    | .ok (raw, fext) =>
      match genPathR with
      | .error e => ⟨false, none, none, 0, some e⟩
      | .ok outPath =>
        match saveR outPath raw fext with
        | .error e => ⟨false, none, none, 0, some e⟩
        | .ok _ => ⟨true, some outPath, some fext, raw.length, none⟩

/-! ### Layout lemmas for `_parse_header` -/

/-- `struct.unpack(">I", n.to_bytes(4, "big"))` round-trips below `2**32`. -/
theorem be32_beBytes (n : Nat) (h : n < 4294967296) : be32 (beBytes 4 n) = n := by
  simp [be32, beBytes, List.range_succ, Nat.shiftRight_eq_div_pow]
  omega

/-- A header blob with `has_password = 0` in the exact layout the spec
describes: flag, extension length, extension, big-endian payload length,
payload. -/
def headerNoPwd (ext data : List Nat) : List Nat :=
  0 :: ext.length :: (ext ++ beBytes 4 data.length ++ data)

/-- A header blob with `has_password = 1`: flag, 32-byte hash, 16-byte
salt, extension length, extension, big-endian payload length, payload. -/
def headerWithPwd (hash salt ext data : List Nat) : List Nat :=
  1 :: (hash ++ salt ++ ext.length :: (ext ++ beBytes 4 data.length ++ data))

/-- Evaluation of `parseTail` on a structurally well-formed tail whose
declared data length is `dl`: the slices land exactly on the serialized
fields, and the parse fails `lengthMismatch` precisely when the remaining
data's length differs from `dl`. -/
theorem parseTail_layout (pre ext data : List Nat) (dl : Nat) (has_pwd : Bool)
    (ph salt pwd : List Nat) (hdl : dl < 4294967296) :
    parseTail (pre ++ ext.length :: (ext ++ beBytes 4 dl ++ data)) pre.length
      has_pwd ph salt pwd =
    if data.length ≠ dl then .error .lengthMismatch
    else if !has_pwd then .ok (data, ext)
    else if pwd = [] then .error .passwordRequired
    else if sha256 (pwd ++ hexAscii salt) ≠ ph then .error .wrongPassword
    else .ok (List.zipWith Nat.xor data
      (generate_key_stream pwd salt data.length), ext) := by
  set blob := pre ++ ext.length :: (ext ++ beBytes 4 dl ++ data) with hblob
  have hlen : blob.length = pre.length + 1 + ext.length + 4 + data.length := by
    simp [hblob, List.length_append, beBytes_length]
    omega
  have hgetD : blob.getD pre.length 0 = ext.length := by
    rw [hblob, List.getD_append_right pre _ 0 pre.length le_rfl]
    simp
  have hdropExt : blob.drop (pre.length + 1) = ext ++ beBytes 4 dl ++ data := by
    rw [hblob]
    have : pre ++ ext.length :: (ext ++ beBytes 4 dl ++ data)
        = pre ++ [ext.length] ++ (ext ++ beBytes 4 dl ++ data) := by simp
    rw [this]
    have hl : pre.length + 1 = (pre ++ [ext.length]).length + 0 := by simp
    rw [hl, List.drop_append]
    simp
  have hdropLen : blob.drop (pre.length + 1 + ext.length)
      = beBytes 4 dl ++ data := by
    rw [hblob]
    have : pre ++ ext.length :: (ext ++ beBytes 4 dl ++ data)
        = (pre ++ ext.length :: ext) ++ (beBytes 4 dl ++ data) := by simp
    rw [this]
    have hl : pre.length + 1 + ext.length = (pre ++ ext.length :: ext).length + 0 := by
      simp; omega
    rw [hl, List.drop_append]
    simp
  have hdropData : blob.drop (pre.length + 1 + ext.length + 4) = data := by
    rw [hblob]
    have : pre ++ ext.length :: (ext ++ beBytes 4 dl ++ data)
        = (pre ++ ext.length :: (ext ++ beBytes 4 dl)) ++ data := by simp
    rw [this]
    have hl : pre.length + 1 + ext.length + 4
        = (pre ++ ext.length :: (ext ++ beBytes 4 dl)).length + 0 := by
      simp [beBytes_length]; omega
    rw [hl, List.drop_append]
    simp
  have htakeExt : (ext ++ beBytes 4 dl ++ data).take ext.length = ext := by
    rw [List.append_assoc]
    exact List.take_left ext _
  have htake4 : (beBytes 4 dl ++ data).take 4 = beBytes 4 dl := by
    have h4 : (4 : Nat) = (beBytes 4 dl).length := (beBytes_length 4 dl).symm
    rw [h4]
    exact List.take_left _ _
  have c1 : ¬ blob.length < pre.length + 1 := by omega
  have c2 : ¬ blob.length < pre.length + 1 + ext.length + 4 := by omega
  rw [parseTail.eq_def]
  rw [if_neg c1, hgetD, if_neg c2, hdropExt, hdropLen, hdropData, htakeExt,
    htake4, be32_beBytes dl hdl]

/-- `_parse_header` on a well-formed passwordless blob returns the payload
and extension exactly. -/
theorem parse_header_noPwd (ext data pwd : List Nat)
    (hdl : data.length < 4294967296) :
    parse_header (headerNoPwd ext data) pwd = .ok (data, ext) := by
  have h := parseTail_layout [0] ext data data.length false [] [] pwd hdl
  simp only [List.singleton_append, List.length_singleton, ne_eq,
    not_true_eq_false, if_false, ite_false, Bool.not_false, if_true] at h
  simp only [parse_header, headerNoPwd]
  norm_num
  simpa using h

/-- `_parse_header` on a well-formed password-protected blob: empty password
fails `PasswordRequired`, a hash mismatch fails `WrongPassword`, and the
correct password decrypts by XOR with the keystream. -/
theorem parse_header_withPwd (hash salt ext data pwd : List Nat)
    (hh : hash.length = 32) (hs : salt.length = 16)
    (hdl : data.length < 4294967296) :
    parse_header (headerWithPwd hash salt ext data) pwd =
    (if pwd = [] then .error .passwordRequired
     else if sha256 (pwd ++ hexAscii salt) ≠ hash then .error .wrongPassword
     else .ok (List.zipWith Nat.xor data
        (generate_key_stream pwd salt data.length), ext)) := by
  have hpre : (1 :: (hash ++ salt)).length = 49 := by simp [hh, hs]
  have h := parseTail_layout (1 :: (hash ++ salt)) ext data data.length true
    hash salt pwd hdl
  rw [hpre] at h
  have hblob : (1 :: (hash ++ salt)) ++
      ext.length :: (ext ++ beBytes 4 data.length ++ data)
      = headerWithPwd hash salt ext data := by
    simp [headerWithPwd]
  rw [hblob] at h
  have hlenblob : (headerWithPwd hash salt ext data).length
      = 49 + 1 + ext.length + 4 + data.length := by
    simp [headerWithPwd, List.length_append, beBytes_length, hh, hs]
    omega
  have hdrop1 : (headerWithPwd hash salt ext data).drop 1
      = hash ++ (salt ++ ext.length :: (ext ++ beBytes 4 data.length ++ data)) := by
    simp [headerWithPwd]
  have htakeHash : ((headerWithPwd hash salt ext data).drop 1).take 32 = hash := by
    rw [hdrop1, ← hh]
    exact List.take_left _ _
  have hdrop33 : (headerWithPwd hash salt ext data).drop 33
      = salt ++ ext.length :: (ext ++ beBytes 4 data.length ++ data) := by
    have h33 : (33 : Nat) = 1 + hash.length + 0 := by omega
    rw [headerWithPwd, h33]
    rw [show (1 : Nat) + hash.length + 0 = hash.length + 0 + 1 by omega]
    rw [List.drop_succ_cons]
    rw [show hash ++ salt ++ ext.length :: (ext ++ beBytes 4 data.length ++ data)
      = hash ++ (salt ++ ext.length :: (ext ++ beBytes 4 data.length ++ data)) by simp]
    exact List.drop_left _ _
  have htakeSalt : ((headerWithPwd hash salt ext data).drop 33).take 16 = salt := by
    rw [hdrop33, ← hs]
    exact List.take_left _ _
  simp only [parse_header]
  rw [if_neg (by rw [hlenblob]; omega)]
  rw [if_pos (by simp [headerWithPwd])]
  rw [if_neg (by rw [hlenblob]; omega)]
  rw [htakeHash, htakeSalt, h]
  simp

/-- A declared data length that disagrees with the bytes actually left in
the blob is a hard `lengthMismatch` failure. -/
theorem parse_header_mismatch (ext data pwd : List Nat) (dl : Nat)
    (hdl : dl < 4294967296) (hne : data.length ≠ dl) :
    parse_header (0 :: ext.length :: (ext ++ beBytes 4 dl ++ data)) pwd
      = .error .lengthMismatch := by
  have h := parseTail_layout [0] ext data dl false [] [] pwd hdl
  rw [if_pos hne] at h
  simp only [List.singleton_append, List.length_singleton] at h
  simp only [parse_header]
  rw [if_neg (by simp), if_neg (by simp)]
  exact h

/-- An empty blob fails `headerCorrupt` at the flag byte. -/
theorem parse_header_empty (pwd : List Nat) :
    parse_header [] pwd = .error .headerCorrupt := by
  simp [parse_header]

/-- A blob holding only the flag byte fails `headerCorrupt` at the
extension-length byte. -/
theorem parse_header_flagOnly (pwd : List Nat) :
    parse_header [0] pwd = .error .headerCorrupt := by
  simp [parse_header, parseTail]

/-- A `has_password = 1` blob with fewer than 48 bytes after the flag fails
`headerCorrupt` at the hash/salt block. -/
theorem parse_header_shortPwdBlock (rest pwd : List Nat) (h : rest.length < 48) :
    parse_header (1 :: rest) pwd = .error .headerCorrupt := by
  simp only [parse_header, List.length_cons, List.getD_cons_zero]
  rw [if_neg (by omega), if_pos trivial, if_pos (by omega)]

/-- A flag-0 blob whose extension/data-length slice would run past the end
fails `headerCorrupt`. -/
theorem parse_header_shortTail (el : Nat) (rest pwd : List Nat)
    (h : rest.length < el + 4) :
    parse_header (0 :: el :: rest) pwd = .error .headerCorrupt := by
  simp only [parse_header, List.length_cons, List.getD_cons_zero]
  rw [if_neg (by omega), if_neg (by omega)]
  simp only [parseTail, List.length_cons, List.getD_cons_succ,
    List.getD_cons_zero]
  rw [if_neg (by omega), if_pos (by omega)]

/-- Whenever `parseTail` succeeds, the blob decomposes exactly: its length
is the offset plus one extension-length byte, the extension, four length
bytes, and the payload — nothing truncated, nothing padded. -/
theorem parseTail_ok_length (header : List Nat) (idx : Nat) (hp : Bool)
    (ph salt pwd d e : List Nat)
    (h : parseTail header idx hp ph salt pwd = .ok (d, e)) :
    header.length = idx + 1 + e.length + 4 + d.length := by
  simp only [parseTail] at h
  split at h
  · simp at h
  · next hc1 =>
    split at h
    · simp at h
    · next hc2 =>
      split at h
      · simp at h
      · next hc3 =>
        split at h
        · next hp4 =>
          simp only [Except.ok.injEq, Prod.mk.injEq] at h
          obtain ⟨hd, he⟩ := h
          subst hd he
          simp only [List.length_drop, List.length_take]
          omega
        · next hp4 =>
          split at h
          · simp at h
          · split at h
            · simp at h
            · simp only [Except.ok.injEq, Prod.mk.injEq] at h
              obtain ⟨hd, he⟩ := h
              subst hd he
              have hk := generate_key_stream_length pwd salt
                (header.drop (idx + 1 + header.getD idx 0 + 4)).length
              simp only [List.length_drop] at hk
              simp only [List.length_zipWith, List.length_drop,
                List.length_take, hk]
              omega

/-- Whenever `_parse_header` succeeds, the blob length is exactly accounted
for by the returned extension and payload plus the fixed overhead. -/
theorem parse_header_ok_length (blob pwd d e : List Nat)
    (h : parse_header blob pwd = .ok (d, e)) :
    blob.length = (if blob.getD 0 0 = 1 then 49 else 1) + 1 + e.length
      + 4 + d.length := by
  simp only [parse_header] at h
  split at h
  · simp at h
  · split at h
    · next hflag =>
      split at h
      · simp at h
      · rw [if_pos hflag]
        exact parseTail_ok_length blob 49 true _ _ pwd d e h
    · next hflag =>
      rw [if_neg hflag]
      exact parseTail_ok_length blob 1 false _ _ pwd d e h

/-- Byte-wise XOR against a keystream at least as long as the data is an
involution. -/
theorem zipWith_xor_cancel (d ks : List Nat) (h : d.length ≤ ks.length) :
    List.zipWith Nat.xor (List.zipWith Nat.xor d ks) ks = d := by
  induction d generalizing ks with
  | nil => simp
  | cons a as ih =>
    cases ks with
    | nil => simp at h
    | cons b bs =>
      simp only [List.zipWith_cons_cons]
      rw [ih bs (by simpa using h)]
      rw [show Nat.xor (Nat.xor a b) b = a from Nat.xor_cancel_right b a]

/-! ### Claim theorems -/

/-- Claim C3: `_parse_header` follows exactly the documented layout: flag
byte, optional 32-byte hash plus 16-byte salt, extension-length byte,
extension, 4-byte big-endian data length, then the remainder as data.  A
slice past the end of the blob fails `headerCorrupt` (empty blob; flag-only
blob; short password block; short extension/length slice), a remaining-data
length differing from the declared one fails `lengthMismatch`, and every
successful parse accounts for the blob exactly — no truncation, no
padding. -/
theorem C3_header_layout (ext data rest rest2 blob d e pwd : List Nat)
    (dl el : Nat)
    (hdata : data.length < 4294967296) (hdl : dl < 4294967296)
    (hne : data.length ≠ dl)
    (hrest : rest.length < 48) (hrest2 : rest2.length < el + 4)
    (hok : parse_header blob pwd = .ok (d, e)) :
    parse_header (headerNoPwd ext data) pwd = .ok (data, ext) ∧
    parse_header (0 :: ext.length :: (ext ++ beBytes 4 dl ++ data)) pwd
      = .error .lengthMismatch ∧
    parse_header [] pwd = .error .headerCorrupt ∧
    parse_header [0] pwd = .error .headerCorrupt ∧
    parse_header (1 :: rest) pwd = .error .headerCorrupt ∧
    parse_header (0 :: el :: rest2) pwd = .error .headerCorrupt ∧
    blob.length = (if blob.getD 0 0 = 1 then 49 else 1) + 1 + e.length
      + 4 + d.length :=
  ⟨parse_header_noPwd ext data pwd hdata,
   parse_header_mismatch ext data pwd dl hdl hne,
   parse_header_empty pwd,
   parse_header_flagOnly pwd,
   parse_header_shortPwdBlock rest pwd hrest,
   parse_header_shortTail el rest2 pwd hrest2,
   parse_header_ok_length blob pwd d e hok⟩

/-- Witness for C3 at concrete inputs: extension `"txt"`, payload `b"A"`,
a mismatching declared length 5, and assorted truncated blobs. -/
theorem C3_header_layout_witness :
    parse_header (headerNoPwd [116, 120, 116] [65]) [] = .ok ([65], [116, 120, 116]) ∧
    parse_header (0 :: 3 :: ([116, 120, 116] ++ beBytes 4 5 ++ [65])) []
      = .error .lengthMismatch ∧
    parse_header [] [] = .error .headerCorrupt ∧
    parse_header [0] [] = .error .headerCorrupt ∧
    parse_header (1 :: [9, 9]) [] = .error .headerCorrupt ∧
    parse_header (0 :: 7 :: [1, 2, 3]) [] = .error .headerCorrupt ∧
    (headerNoPwd [] [] : List Nat).length =
      (if (headerNoPwd [] [] : List Nat).getD 0 0 = 1 then 49 else 1) + 1
        + ([] : List Nat).length + 4 + ([] : List Nat).length := by
  have h := C3_header_layout [116, 120, 116] [65] [9, 9] [1, 2, 3]
    (headerNoPwd [] []) [] [] [] 5 7
    (by decide) (by decide) (by decide) (by decide) (by decide) (by rfl)
  exact h

/-- Claim C4: on a well-formed password-protected blob, an empty password
fails `passwordRequired` (whatever the stored hash is, i.e. before any
hashing can matter), a non-empty password fails `wrongPassword` exactly
when `SHA256(password ++ hex(salt))` differs from the stored hash, and so
the correct password never produces `wrongPassword`. -/
theorem C4_password_verification (hash salt ext data pwd : List Nat)
    (hh : hash.length = 32) (hs : salt.length = 16)
    (hdata : data.length < 4294967296) (hpw : pwd ≠ []) :
    parse_header (headerWithPwd hash salt ext data) []
      = .error .passwordRequired ∧
    (parse_header (headerWithPwd hash salt ext data) pwd
      = .error .wrongPassword ↔ sha256 (pwd ++ hexAscii salt) ≠ hash) ∧
    (sha256 (pwd ++ hexAscii salt) = hash →
      parse_header (headerWithPwd hash salt ext data) pwd
        ≠ .error .wrongPassword) := by
  refine ⟨?_, ?_, ?_⟩
  · rw [parse_header_withPwd hash salt ext data [] hh hs hdata]
    simp
  · rw [parse_header_withPwd hash salt ext data pwd hh hs hdata, if_neg hpw]
    by_cases hsha : sha256 (pwd ++ hexAscii salt) ≠ hash
    · simp [hsha]
    · simp [hsha]
  · intro hsha
    rw [parse_header_withPwd hash salt ext data pwd hh hs hdata, if_neg hpw,
      if_neg (by simp [hsha])]
    simp

/-- Witness for C4: password `"secret"` against the hash it actually
produces over the all-zero 16-byte salt. -/
theorem C4_password_verification_witness :
    (sha256 ([115, 101, 99, 114, 101, 116] ++
        hexAscii (List.replicate 16 0))).length = 32 ∧
    parse_header
      (headerWithPwd
        (sha256 ([115, 101, 99, 114, 101, 116] ++ hexAscii (List.replicate 16 0)))
        (List.replicate 16 0) [116, 120, 116] [72, 105]) []
      = .error .passwordRequired ∧
    (parse_header
      (headerWithPwd
        (sha256 ([115, 101, 99, 114, 101, 116] ++ hexAscii (List.replicate 16 0)))
        (List.replicate 16 0) [116, 120, 116] [72, 105])
      [115, 101, 99, 114, 101, 116]
      = .error .wrongPassword ↔
      sha256 ([115, 101, 99, 114, 101, 116] ++ hexAscii (List.replicate 16 0))
        ≠ sha256 ([115, 101, 99, 114, 101, 116] ++ hexAscii (List.replicate 16 0))) := by
  have h := C4_password_verification
    (sha256 ([115, 101, 99, 114, 101, 116] ++ hexAscii (List.replicate 16 0)))
    (List.replicate 16 0) [116, 120, 116] [72, 105]
    [115, 101, 99, 114, 101, 116]
    (sha256_length _) (by decide) (by decide) (by decide)
  exact ⟨sha256_length _, h.1, h.2.1⟩

/-- Claim C5: XOR with the keystream derived from (password, salt, length)
is an involution, so a payload encrypted with that keystream is recovered
byte-for-byte by `_parse_header`'s decryption step under the correct
password. -/
theorem C5_xor_involution_roundtrip (data salt hash ext pwd : List Nat)
    (hh : hash.length = 32) (hs : salt.length = 16)
    (hdata : data.length < 4294967296) (hpw : pwd ≠ [])
    (hcorrect : sha256 (pwd ++ hexAscii salt) = hash) :
    List.zipWith Nat.xor
      (List.zipWith Nat.xor data (generate_key_stream pwd salt data.length))
      (generate_key_stream pwd salt data.length) = data ∧
    parse_header
      (headerWithPwd hash salt ext
        (List.zipWith Nat.xor data (generate_key_stream pwd salt data.length)))
      pwd = .ok (data, ext) := by
  have hks := generate_key_stream_length pwd salt data.length
  have hcancel := zipWith_xor_cancel data
    (generate_key_stream pwd salt data.length) (by omega)
  refine ⟨hcancel, ?_⟩
  have hcl : (List.zipWith Nat.xor data
      (generate_key_stream pwd salt data.length)).length = data.length := by
    simp [List.length_zipWith, hks]
  rw [parse_header_withPwd hash salt ext _ pwd hh hs (by omega), if_neg hpw,
    if_neg (by simp [hcorrect]), hcl, hcancel]

/-- Witness for C5: plaintext `b"Hi"`, password `"secret"`, all-zero salt,
matching stored hash. -/
theorem C5_xor_involution_roundtrip_witness :
    List.zipWith Nat.xor
      (List.zipWith Nat.xor [72, 105]
        (generate_key_stream [115, 101, 99, 114, 101, 116]
          (List.replicate 16 0) 2))
      (generate_key_stream [115, 101, 99, 114, 101, 116]
        (List.replicate 16 0) 2) = [72, 105] ∧
    parse_header
      (headerWithPwd
        (sha256 ([115, 101, 99, 114, 101, 116] ++ hexAscii (List.replicate 16 0)))
        (List.replicate 16 0) [116, 120, 116]
        (List.zipWith Nat.xor [72, 105]
          (generate_key_stream [115, 101, 99, 114, 101, 116]
            (List.replicate 16 0) 2)))
      [115, 101, 99, 114, 101, 116] = .ok ([72, 105], [116, 120, 116]) := by
  have h := C5_xor_involution_roundtrip [72, 105] (List.replicate 16 0)
    (sha256 ([115, 101, 99, 114, 101, 116] ++ hexAscii (List.replicate 16 0)))
    [116, 120, 116] [115, 101, 99, 114, 101, 116]
    (sha256_length _) (by decide) (by decide) (by decide) rfl
  exact h

/-- Claim C6: `_generate_key_stream` is a deterministic pure function of
(password, salt, length): identical invocations agree byte-for-byte, and
the output has exactly the requested length. -/
theorem C6_keystream_deterministic (p s : List Nat) (l : Nat) :
    generate_key_stream p s l = generate_key_stream p s l ∧
    (generate_key_stream p s l).length = l :=
  ⟨rfl, generate_key_stream_length p s l⟩

/-- Claim C1: `extract_with_fallback` attempts depths in exactly the order
2, 6, 8, each attempt running bit extraction then header parsing then the
password stage atomically (`attemptDepth`); the first success is returned
immediately with no later depth attempted, any failure advances to the next
depth, and only when all three fail is the (wrapped) last error raised. -/
theorem C1_fallback_order (path : String) (h w : Nat) (flat pwd : List Nat) :
    extract_with_fallback path h w flat pwd =
      match attemptDepth h w flat pwd 2 with
      | .ok v => .ok v
      | .error _ =>
        match attemptDepth h w flat pwd 6 with
        | .ok v => .ok v
        | .error _ =>
          match attemptDepth h w flat pwd 8 with
          | .ok v => .ok v
          | .error e => .error (wrapMsg (errMsg e)) := by
  cases h2 : attemptDepth h w flat pwd 2 with
  | ok v => simp [extract_with_fallback, tryDepths, h2]
  | error e2 =>
    cases h6 : attemptDepth h w flat pwd 6 with
    | ok v => simp [extract_with_fallback, tryDepths, h2, h6]
    | error e6 =>
      cases h8 : attemptDepth h w flat pwd 8 with
      | ok v => simp [extract_with_fallback, tryDepths, h2, h6, h8]
      | error e8 => simp [extract_with_fallback, tryDepths, h2, h6, h8]

/-- The first element of a `dropWhile` result never satisfies the
predicate. -/
theorem dropWhile_head_ne {α : Type} (p : α → Bool) (l : List α) (x : α)
    (h : (l.dropWhile p).head? = some x) : p x = false := by
  induction l with
  | nil => simp at h
  | cons a as ih =>
    rw [List.dropWhile_cons] at h
    by_cases hp : p a = true
    · rw [if_pos hp] at h
      exact ih h
    · rw [if_neg hp] at h
      simp at h
      subst h
      simpa using hp

/-- `rstrip(b"\x00")` removes exactly a trailing run of zeros: the input
decomposes as the result followed by zeros. -/
theorem rstrip_decomposition (l : List Nat) :
    l = rstripZeroBytes l ++
      List.replicate (l.reverse.takeWhile (· == 0)).length 0 := by
  have hT : l.reverse.takeWhile (· == 0) =
      List.replicate (l.reverse.takeWhile (· == 0)).length 0 := by
    apply List.eq_replicate_of_mem
    intro b hb
    have := List.mem_takeWhile_imp hb
    simpa using this
  calc l = l.reverse.reverse := (l.reverse_reverse).symm
    _ = (l.reverse.takeWhile (· == 0) ++ l.reverse.dropWhile (· == 0)).reverse := by
        rw [List.takeWhile_append_dropWhile]
    _ = (l.reverse.dropWhile (· == 0)).reverse
        ++ (l.reverse.takeWhile (· == 0)).reverse := by
        rw [List.reverse_append]
    _ = rstripZeroBytes l
        ++ List.replicate (l.reverse.takeWhile (· == 0)).length 0 := by
        rw [rstripZeroBytes]
        congr 1
        rw [hT, List.reverse_replicate]
        simp

/-- The stripped buffer never ends in a zero byte. -/
theorem rstrip_getLast_ne_zero (l : List Nat) :
    (rstripZeroBytes l).getLast? ≠ some 0 := by
  rw [rstripZeroBytes, List.getLast?_reverse]
  intro hcon
  have := dropWhile_head_ne (· == 0) l.reverse 0 hcon
  simp at this

/-- Claim C7: the video reconstructor returns the flattened pixel buffer
with exactly its maximal trailing run of zero bytes removed: the buffer
decomposes as the returned bytes followed by zeros, the returned bytes
never end in a zero (so everything up to and including the last non-zero
byte, interior zero runs included, is preserved), and an all-zero buffer
yields an empty result. -/
theorem C7_strip_trailing_zeros (arr : List (List (List Nat))) (n : Nat) :
    binpng_bytes_to_video_data arr = rstripZeroBytes (pixelBuffer arr) ∧
    pixelBuffer arr = binpng_bytes_to_video_data arr ++
      List.replicate ((pixelBuffer arr).reverse.takeWhile (· == 0)).length 0 ∧
    (binpng_bytes_to_video_data arr).getLast? ≠ some 0 ∧
    rstripZeroBytes (List.replicate n 0) = [] := by
  refine ⟨rfl, rstrip_decomposition _, rstrip_getLast_ne_zero _, ?_⟩
  rw [rstripZeroBytes, List.reverse_replicate, List.dropWhile_replicate]
  simp

/-- Claim C10: `decode_duck_image` never propagates an exception — it is a
total function into the five-field result record — and on every failure
path the result has `success = false`, a non-`none` error, `none` output
path and file type, and `data_size = 0`, while on success it has
`success = true` and `error = none`. -/
theorem C10_decode_result_shape (v : Except String Unit)
    (x : Except String (List Nat × String)) (g : Except String String)
    (s : String → List Nat → String → Except String Unit) :
    ((decode_duck_image v x g s).success = true ∧
      (decode_duck_image v x g s).error = none) ∨
    ((decode_duck_image v x g s).success = false ∧
      (decode_duck_image v x g s).error ≠ none ∧
      (decode_duck_image v x g s).output_path = none ∧
      (decode_duck_image v x g s).file_type = none ∧
      (decode_duck_image v x g s).data_size = 0) := by
  cases v with
  | error e => right; simp [decode_duck_image]
  | ok u =>
    cases x with
    | error e => right; simp [decode_duck_image]
    | ok p =>
      obtain ⟨raw, fext⟩ := p
      cases g with
      | error e => right; simp [decode_duck_image]
      | ok op =>
        cases hs : s op raw fext with
        | error e => right; simp [decode_duck_image, hs]
        | ok u2 => left; simp [decode_duck_image, hs]

set_option maxRecDepth 8000 in
/-- Counterexample to claim C9 as stated: on a 1×1 image every depth fails
`insufficientData`, and the surfaced error is the wrapped constant message,
which does not contain the image path `"duck.png"` (nor any password
annotation) — the source raises
`ValueError(f"Extraction failed: {e} / 提取失败: {e}")` without the path. -/
theorem C9_no_path_annotation_counterexample :
    extract_with_fallback "duck.png" 1 1 [0, 0, 0] []
      = .error (wrapMsg (errMsg .insufficientData)) ∧
    ¬ ("duck.png".toList <:+: (wrapMsg (errMsg .insufficientData)).toList) := by
  constructor
  · rfl
  · decide

/-- Claim C9 (amended): when all three depth attempts fail,
`extract_with_fallback` surfaces the LAST recorded per-depth error wrapped
as `Extraction failed: {e} / 提取失败: {e}`; the surfaced message is
independent of the image path and is always one of the seven fixed constant
message strings, so it never echoes the password or any value derived from
it (the claim's assertion that the error is annotated with the image path
and with whether a password was supplied does not hold on the code). -/
theorem C9_error_surfacing (path1 path2 : String) (h w : Nat)
    (flat pwd : List Nat) (e2 e6 e8 : DuckErr)
    (h2 : attemptDepth h w flat pwd 2 = .error e2)
    (h6 : attemptDepth h w flat pwd 6 = .error e6)
    (h8 : attemptDepth h w flat pwd 8 = .error e8) :
    extract_with_fallback path1 h w flat pwd
      = .error (wrapMsg (errMsg e8)) ∧
    extract_with_fallback path1 h w flat pwd
      = extract_with_fallback path2 h w flat pwd ∧
    wrapMsg (errMsg e8) ∈ [wrapMsg (errMsg .insufficientData),
      wrapMsg (errMsg .invalidLength), wrapMsg (errMsg .headerCorrupt),
      wrapMsg (errMsg .lengthMismatch), wrapMsg (errMsg .passwordRequired),
      wrapMsg (errMsg .wrongPassword), wrapMsg (errMsg .extractionFailed)] := by
  refine ⟨?_, rfl, ?_⟩
  · simp [extract_with_fallback, tryDepths, h2, h6, h8]
  · cases e8 <;> simp

/-- Witness for the amended C9 on the failing 1×1 image. -/
theorem C9_error_surfacing_witness :
    extract_with_fallback "a" 1 1 [0, 0, 0] []
      = .error (wrapMsg (errMsg .insufficientData)) ∧
    extract_with_fallback "a" 1 1 [0, 0, 0] []
      = extract_with_fallback "b" 1 1 [0, 0, 0] [] ∧
    wrapMsg (errMsg .insufficientData) ∈ [wrapMsg (errMsg .insufficientData),
      wrapMsg (errMsg .invalidLength), wrapMsg (errMsg .headerCorrupt),
      wrapMsg (errMsg .lengthMismatch), wrapMsg (errMsg .passwordRequired),
      wrapMsg (errMsg .wrongPassword), wrapMsg (errMsg .extractionFailed)] :=
  C9_error_surfacing "a" "b" 1 1 [0, 0, 0] []
    .insufficientData .insufficientData .insufficientData rfl rfl rfl

/-- Modelled from the claim's words for C8: a channel-major buffer, with
the channel as the outermost (slowest-varying) index, so all bytes of one
channel precede every byte of the next channel. -/
def channelMajorBuffer (arr : List (List (List Nat))) : List Nat :=
  ((List.range 3).map (fun ch =>
    (arr.map (fun row => row.map (fun p => p.getD ch 0))).flatten)).flatten

/-- Counterexample to claim C8 as stated: for the 1×2 image with pixels
(1,2,3) and (4,5,6) the reconstructor's buffer is the interleaved
`[1,2,3,4,5,6]` (`reshape(-1,3).reshape(-1)` keeps the channel innermost),
not the channel-major `[1,4,2,5,3,6]`. -/
theorem C8_channel_major_counterexample :
    pixelBuffer [[[1, 2, 3], [4, 5, 6]]]
      ≠ channelMajorBuffer [[[1, 2, 3], [4, 5, 6]]] := by
  decide

/-- One row of the buffer: pixel bytes are laid out with the channel as the
innermost index. -/
theorem row_flatten_getD (row : List (List Nat)) (c ch : Nat)
    (hpix : ∀ p ∈ row, p.length = 3) (hc : c < row.length) (hch : ch < 3) :
    row.flatten.getD (c * 3 + ch) 0 = (row.getD c []).getD ch 0 := by
  induction row generalizing c with
  | nil => simp at hc
  | cons p ps ih =>
    have hp3 : p.length = 3 := hpix p (by simp)
    cases c with
    | zero =>
      rw [List.flatten_cons]
      rw [show (0 * 3 + ch : Nat) = ch by omega]
      rw [List.getD_append p ps.flatten 0 ch (by omega)]
      simp
    | succ c' =>
      rw [List.flatten_cons]
      rw [List.getD_append_right p ps.flatten 0 ((c' + 1) * 3 + ch) (by omega)]
      rw [show ((c' + 1) * 3 + ch - p.length : Nat) = c' * 3 + ch by omega]
      rw [List.getD_cons_succ]
      exact ih c' (fun q hq => hpix q (List.mem_cons_of_mem p hq))
        (by simpa using hc)

/-- The buffer of a cons row is that row's bytes followed by the rest. -/
theorem pixelBuffer_cons (row : List (List Nat)) (rows : List (List (List Nat))) :
    pixelBuffer (row :: rows) = row.flatten ++ pixelBuffer rows := by
  simp [pixelBuffer, List.flatten_append]

/-- Claim C8 (amended): the buffer built by the video reconstructor before
zero-stripping lists pixel bytes in pixel-major, channel-minor order — the
byte at flat offset `(r*w + c)*3 + ch` is channel `ch` of pixel `(r, c)`,
so R,G,B of each pixel stay adjacent (the claim's channel-major,
channel-outermost order does not hold on the code). -/
theorem C8_buffer_pixel_major (arr : List (List (List Nat))) (w r c ch : Nat)
    (hrow : ∀ row ∈ arr, row.length = w)
    (hpix : ∀ row ∈ arr, ∀ p ∈ row, p.length = 3)
    (hr : r < arr.length) (hc : c < w) (hch : ch < 3) :
    (pixelBuffer arr).getD ((r * w + c) * 3 + ch) 0
      = ((arr.getD r []).getD c []).getD ch 0 := by
  induction arr generalizing r with
  | nil => simp at hr
  | cons row rows ih =>
    have hwrow : row.length = w := hrow row (by simp)
    have hflat : row.flatten.length = 3 * w := by
      rw [List.length_flatten]
      have hmap : row.map List.length = List.replicate w 3 := by
        have : ∀ b ∈ row.map List.length, b = 3 := by
          intro b hb
          obtain ⟨p, hp, hpb⟩ := List.mem_map.mp hb
          rw [← hpb]
          exact hpix row (by simp) p hp
        have h1 := List.eq_replicate_of_mem this
        simpa [hwrow] using h1
      rw [hmap, List.sum_replicate, smul_eq_mul]
      omega
    cases r with
    | zero =>
      rw [pixelBuffer_cons]
      rw [List.getD_append row.flatten (pixelBuffer rows) 0 _ (by omega)]
      rw [show ((0 * w + c) * 3 + ch : Nat) = c * 3 + ch by omega]
      rw [List.getD_cons_zero]
      exact row_flatten_getD row c ch (hpix row (by simp)) (by omega) hch
    | succ r' =>
      rw [pixelBuffer_cons]
      rw [List.getD_append_right row.flatten (pixelBuffer rows) 0 _
        (by rw [hflat]; nlinarith)]
      rw [hflat]
      rw [show (((r' + 1) * w + c) * 3 + ch - 3 * w : Nat)
        = (r' * w + c) * 3 + ch by ring_nf; omega]
      rw [List.getD_cons_succ]
      exact ih r' (fun q hq => hrow q (List.mem_cons_of_mem row hq))
        (fun q hq => hpix q (List.mem_cons_of_mem row hq)) (by simpa using hr)

/-- Witness for the amended C8 on the concrete 1×2 image. -/
theorem C8_buffer_pixel_major_witness :
    (pixelBuffer [[[1, 2, 3], [4, 5, 6]]]).getD ((0 * 2 + 1) * 3 + 2) 0
      = ((([[[1, 2, 3], [4, 5, 6]]] :
          List (List (List Nat))).getD 0 []).getD 1 []).getD 2 0 :=
  C8_buffer_pixel_major [[[1, 2, 3], [4, 5, 6]]] 2 0 1 2
    (by decide) (by decide) (by decide) (by decide) (by decide)

/-! ### Claim C2: the bit stream in nested traversal order -/

/-- Modelled from the claim's words for C2: visit pixels in row-major
order with channels R,G,B within each pixel, emitting the `k` low bits of
each eligible channel value most-significant-first; a pixel is skipped only
when it lies in `rows < floor(H*0.08)` and `cols < floor(W*0.40)` and both
of those bounds are strictly positive. -/
def specBitStream (h w : Nat) (flat : List Nat) (k : Nat) : List Bool :=
  ((List.range h).map (fun r =>
    ((List.range w).map (fun c =>
      if 0 < skipH h ∧ 0 < skipW w ∧ r < skipH h ∧ c < skipW w then []
      else
        ((List.range 3).map (fun ch =>
          (List.range k).map (fun i =>
            (flat.getD ((r * w + c) * 3 + ch) 0).testBit (k - 1 - i)))).flatten)).flatten)).flatten

/-- The pixel-level eligibility value the flat mask takes on every channel
of pixel `(r, c)`. -/
def pixelElig (h w r c : Nat) : Bool :=
  if 0 < skipW w ∧ 0 < skipH h then
    !(decide (r < skipH h ∧ c < skipW w))
  else true

/-- Splitting a flattened traversal of `range (n*m)` into nested blocks. -/
theorem flatten_map_range_mul {α : Type} (n m : Nat) (f : Nat → List α) :
    ((List.range (n * m)).map f).flatten
    = ((List.range n).map (fun i =>
        ((List.range m).map (fun j => f (i * m + j))).flatten)).flatten := by
  induction n with
  | zero => simp
  | succ n ih =>
    rw [Nat.succ_mul, List.range_add, List.map_append, List.flatten_append, ih,
      List.range_succ, List.map_append, List.flatten_append]
    simp only [List.map_map, List.map_cons, List.map_nil, List.flatten_cons,
      List.flatten_nil, List.append_nil]
    rfl

/-- Filtering before a flat-map is flat-mapping with an empty alternative. -/
theorem flatten_map_filter {α : Type} (p : Nat → Bool) (f : Nat → List α)
    (l : List Nat) :
    ((l.filter p).map f).flatten
      = (l.map (fun i => if p i then f i else [])).flatten := by
  induction l with
  | nil => simp
  | cons a as ih =>
    rw [List.filter_cons]
    by_cases hp : p a <;> simp [hp, ih]

/-- A condition independent of the mapped element pulls out of the
flattened map. -/
theorem flatten_map_ite {α β : Type} (P : Prop) [Decidable P] (l : List β)
    (g : β → List α) :
    (l.map (fun x => if P then g x else [])).flatten
      = if P then (l.map g).flatten else [] := by
  by_cases hP : P <;> simp [hP]

/-- The masked low-`k` bits of a channel value are its plain low-`k` bits,
most significant first. -/
theorem lowBitsMSB_testBit (k v : Nat) :
    lowBitsMSB k v = (List.range k).map (fun i => v.testBit (k - 1 - i)) := by
  rw [lowBitsMSB]
  apply List.map_congr_left
  intro i hi
  rw [Nat.testBit_land, Nat.testBit_two_pow_sub_one]
  rw [List.mem_range] at hi
  have hlt : k - 1 - i < k := by omega
  simp [hlt]

/-- On the flat index of channel `ch` of pixel `(r, c)`, the flattened mask
evaluates to pixel-level eligibility. -/
theorem eligIdx_pixel (h w r c ch : Nat) (hc : c < w) (hch : ch < 3) :
    eligIdx h w ((r * w + c) * 3 + ch) = pixelElig h w r c := by
  have h3 : ((r * w + c) * 3 + ch) / 3 = r * w + c := by omega
  have hrw : (r * w + c) / w = r := by
    rw [show r * w + c = c + w * r by ring]
    rw [Nat.add_mul_div_left c r (by omega : 0 < w)]
    rw [Nat.div_eq_of_lt hc]
    omega
  have hmod : (r * w + c) % w = c := by
    rw [show r * w + c = c + w * r by ring]
    rw [Nat.add_mul_mod_self_left]
    exact Nat.mod_eq_of_lt hc
  rw [eligIdx, pixelElig, h3, hrw, hmod]

/-- Claim C2: for every `h × w × 3` pixel buffer and every depth `k`, the
extractor's bit stream equals, in order, the `k` low bits (MSB-first) of
each eligible channel value, visiting pixels row-major with channels
R,G,B within each pixel, skipping exactly the watermark rectangle when
both of its bounds are strictly positive. -/
theorem C2_bit_stream_order (h w : Nat) (flat : List Nat) (k : Nat) :
    extractBits h w flat k = specBitStream h w flat k := by
  rw [extractBits, flatten_map_filter]
  rw [show h * w * 3 = h * (w * 3) by ring]
  rw [flatten_map_range_mul, specBitStream]
  congr 1
  apply List.map_congr_left
  intro r hr
  rw [flatten_map_range_mul]
  congr 1
  apply List.map_congr_left
  intro c hc
  rw [List.mem_range] at hc
  have hstep : ((List.range 3).map (fun ch =>
      if eligIdx h w (r * (w * 3) + (c * 3 + ch))
      then lowBitsMSB k (flat.getD (r * (w * 3) + (c * 3 + ch)) 0) else [])) =
      ((List.range 3).map (fun ch =>
        if pixelElig h w r c = true
        then (List.range k).map (fun i =>
          (flat.getD ((r * w + c) * 3 + ch) 0).testBit (k - 1 - i)) else [])) := by
    apply List.map_congr_left
    intro ch hch
    rw [List.mem_range] at hch
    rw [show r * (w * 3) + (c * 3 + ch) = (r * w + c) * 3 + ch by ring]
    rw [eligIdx_pixel h w r c ch hc hch, lowBitsMSB_testBit]
  rw [hstep, flatten_map_ite]
  by_cases hskip : 0 < skipW w ∧ 0 < skipH h
  · by_cases hin : r < skipH h ∧ c < skipW w
    · rw [if_neg (by simp [pixelElig, hskip, hin]),
        if_pos ⟨hskip.2, hskip.1, hin.1, hin.2⟩]
    · rw [if_pos (by simp [pixelElig, hskip]; omega),
        if_neg (by simp [hskip.2, hskip.1]; omega)]
  · rw [if_pos (by simp [pixelElig, hskip]), if_neg (by
      intro hcon
      exact hskip ⟨hcon.2.1, hcon.1⟩)]

end Duck
